import Mathlib

/-!
Verification of the Smart-File-Organizer server logic.

This file gives a shallow embedding of the pieces of the code that the
specification talks about, and proves (or refutes) the spec's claims:

* `generateFallbackTags` — the rule-based fallback tagger
  (`server/services/gemini.ts`).
* the similar-file matching predicate and the `apply-to-similar` route
  handler (`server/routes.ts`).
* the `organize-files` route handler (`server/routes.ts`), together with
  a state-passing model of the storage layer (`server/storage.ts`),
  where a possibly failing database update is modelled by a success
  oracle (`storage.updateFile` returns `undefined` on a database error
  instead of throwing, so failure is a value, not an exception).

Strings are handled as their character lists where the TypeScript code
works character by character; `toLowerCase` is modelled on the ASCII
range (`Char.toLower`), which is exact for all inputs appearing in the
rule tables and in the concrete test vectors.
-/

namespace SFO

/-- ASCII lowercasing of a string, modelling `String.prototype.toLowerCase`. -/
def lowerStr (s : String) : String := String.mk (s.data.map Char.toLower)

/-- ASCII lowercasing of a character list. -/
def lowerChars (l : List Char) : List Char := l.map Char.toLower

/-- Does `hay` start with `needle`? (helper for the substring test). -/
def startsWithSeq : List Char → List Char → Bool
  | _, [] => true
  | [], _ :: _ => false
  | h :: hs, n :: ns => h == n && startsWithSeq hs ns

/-- Does `hay` contain `needle` as a contiguous subsequence?  This models
`String.prototype.includes`. -/
def containsSeq : List Char → List Char → Bool
  | [], needle => needle.isEmpty
  | h :: hs, needle => startsWithSeq (h :: hs) needle || containsSeq hs needle

/-- `s.includes(sub)` on strings, via the character lists. -/
def strIncludes (s sub : String) : Bool := containsSeq s.data sub.data

/-- Result record of the tagging service (`FileTagging` in
`server/services/gemini.ts`). -/
structure FileTagging where
  tags : List String
  suggestedFolderName : Option String
  suggestedFileName : Option String
  confidence : ℚ
deriving Repr, DecidableEq

/-- `lowerType.includes('pdf') || lowerType.includes('doc')`. -/
def condDoc (lt : String) : Bool := strIncludes lt "pdf" || strIncludes lt "doc"

/-- `lowerName.includes('resume') || lowerName.includes('cv')`. -/
def condResume (ln : String) : Bool := strIncludes ln "resume" || strIncludes ln "cv"

/-- `lowerName.includes('assignment') || lowerName.includes('homework')`. -/
def condAssign (ln : String) : Bool :=
  strIncludes ln "assignment" || strIncludes ln "homework"

/-- `lowerName.includes('cover') && lowerName.includes('letter')`. -/
def condCover (ln : String) : Bool := strIncludes ln "cover" && strIncludes ln "letter"

/-- `lowerName.includes('job') || lowerName.includes('application')`. -/
def condJob (ln : String) : Bool := strIncludes ln "job" || strIncludes ln "application"

/-- `lowerType.includes('image') || lowerType.includes('jpg') ||
lowerType.includes('png')`. -/
def condImage (lt : String) : Bool :=
  strIncludes lt "image" || strIncludes lt "jpg" || strIncludes lt "png"

/-- `lowerName.includes('photo') || lowerName.includes('pic')`. -/
def condPhoto (ln : String) : Bool := strIncludes ln "photo" || strIncludes ln "pic"

/-- `lowerName.includes('screenshot')`. -/
def condShot (ln : String) : Bool := strIncludes ln "screenshot"

/-- `lowerName.includes('wallpaper') || lowerName.includes('background')`. -/
def condWall (ln : String) : Bool :=
  strIncludes ln "wallpaper" || strIncludes ln "background"

/-- `lowerType.includes('excel') || lowerType.includes('csv') ||
lowerType.includes('spreadsheet')`. -/
def condSheet (lt : String) : Bool :=
  strIncludes lt "excel" || strIncludes lt "csv" || strIncludes lt "spreadsheet"

/-- `lowerName.includes('customer') || lowerName.includes('client')`. -/
def condCustomer (ln : String) : Bool :=
  strIncludes ln "customer" || strIncludes ln "client"

/-- `lowerName.includes('finance') || lowerName.includes('loan') ||
lowerName.includes('payment')`. -/
def condFinance (ln : String) : Bool :=
  strIncludes ln "finance" || strIncludes ln "loan" || strIncludes ln "payment"

/-- `lowerType.includes('video') || lowerType.includes('mp4')`. -/
def condVideo (lt : String) : Bool := strIncludes lt "video" || strIncludes lt "mp4"

/-- `lowerName.includes('report')`. -/
def condReport (ln : String) : Bool := strIncludes ln "report"

/-- `lowerName.includes('invoice') || lowerName.includes('receipt')`. -/
def condInvoice (ln : String) : Bool :=
  strIncludes ln "invoice" || strIncludes ln "receipt"

/-- `lowerName.includes('project')`. -/
def condProject (ln : String) : Bool := strIncludes ln "project"

/-- `lowerName.includes('presentation') || lowerName.includes('ppt')`. -/
def condPresentation (ln : String) : Bool :=
  strIncludes ln "presentation" || strIncludes ln "ppt"

/-- Mutable-state step for the `pdf|doc` block of `generateFallbackTags`:
push `document`, then the `else if` chain over the file name refines the
tags and the suggested folder. The state is the pair
(tags pushed so far, current suggested folder name). -/
def docStep (ln lt : String) (st : List String × Option String) :
    List String × Option String :=
  if condDoc lt then
    let tags := st.1 ++ ["document"]
    if condResume ln then
      (tags ++ ["resume", "personal"], some "Resumes")
    else if condAssign ln then
      (tags ++ ["assignment", "work"], some "Assignments")
    else if condCover ln then
      (tags ++ ["work", "application"], some "Cover Letters")
    else if condJob ln then
      (tags ++ ["work", "application"], some "Job Applications")
    else
      (tags, some "Documents")
  else st

/-- The `image|jpg|png` block of `generateFallbackTags`. -/
def imageStep (ln lt : String) (st : List String × Option String) :
    List String × Option String :=
  if condImage lt then
    let tags := st.1 ++ ["image"]
    if condPhoto ln then
      (tags ++ ["photo"], some "Photos")
    else if condShot ln then
      (tags ++ ["screenshot"], some "Screenshots")
    else if condWall ln then
      (tags ++ ["wallpaper"], some "Wallpapers")
    else
      (tags, some "Images")
  else st

/-- The `excel|csv|spreadsheet` block of `generateFallbackTags`. -/
def sheetStep (ln lt : String) (st : List String × Option String) :
    List String × Option String :=
  if condSheet lt then
    let tags := st.1 ++ ["spreadsheet", "data"]
    if condCustomer ln then
      (tags ++ ["customer"], some "Customer Data")
    else if condFinance ln then
      (tags ++ ["finance"], some "Financial Data")
    else
      (tags, some "Spreadsheets")
  else st

/-- The `video|mp4` block of `generateFallbackTags`. -/
def videoStep (_ln lt : String) (st : List String × Option String) :
    List String × Option String :=
  if condVideo lt then (st.1 ++ ["video"], some "Videos") else st

/-- The `report` name rule of `generateFallbackTags` (tag only, no folder). -/
def reportStep (ln _lt : String) (st : List String × Option String) :
    List String × Option String :=
  if condReport ln then (st.1 ++ ["report"], st.2) else st

/-- The `invoice|receipt` name rule of `generateFallbackTags`. -/
def invoiceStep (ln _lt : String) (st : List String × Option String) :
    List String × Option String :=
  if condInvoice ln then (st.1 ++ ["finance"], some "Financial Documents") else st

/-- The `project` name rule of `generateFallbackTags`. -/
def projectStep (ln _lt : String) (st : List String × Option String) :
    List String × Option String :=
  if condProject ln then (st.1 ++ ["project"], some "Projects") else st

/-- The `presentation|ppt` name rule of `generateFallbackTags`. -/
def presentationStep (ln _lt : String) (st : List String × Option String) :
    List String × Option String :=
  if condPresentation ln then
    (st.1 ++ ["presentation"], some "Presentations")
  else st

/-- The rule-based fallback tagger `generateFallbackTags` of
`server/services/gemini.ts`: the blocks run in source order over the
lowercased name and type, mutating the tag list and the suggested folder
name; if no rule pushed a tag the result is `["uncategorized"]`, and the
confidence is the constant `0.7`. -/
def generateFallbackTags (fileName fileType : String) : FileTagging :=
  let ln := lowerStr fileName
  let lt := lowerStr fileType
  let st := presentationStep ln lt (projectStep ln lt (invoiceStep ln lt
    (reportStep ln lt (videoStep ln lt (sheetStep ln lt
      (imageStep ln lt (docStep ln lt ([], none))))))))
  { tags := if 0 < st.1.length then st.1 else ["uncategorized"]
    suggestedFolderName := st.2
    suggestedFileName := none
    confidence := 7/10 }

/-- The spec's view of the fallback tagger (§4.1): an ordered table of
substring rules; every matching rule appends its tags, and a matching
rule carrying a folder name overwrites the current folder suggestion. -/
structure FallbackRule where
  cond : String → String → Bool
  tags : List String
  folder : Option String

/-- One table step: a matching rule appends its tags and overwrites the
folder suggestion when it carries one. -/
def applyRule (ln lt : String) (st : List String × Option String) (r : FallbackRule) :
    List String × Option String :=
  if r.cond ln lt then
    (st.1 ++ r.tags, match r.folder with | some f => some f | none => st.2)
  else st

/-- The document block as table rows: the `else if` chain becomes rules
whose conditions carry the negations of the earlier branches. -/
def docRules : List FallbackRule :=
  [{ cond := fun _ lt => condDoc lt, tags := ["document"], folder := none },
   { cond := fun ln lt => condDoc lt && condResume ln,
     tags := ["resume", "personal"], folder := some "Resumes" },
   { cond := fun ln lt => condDoc lt && !condResume ln && condAssign ln,
     tags := ["assignment", "work"], folder := some "Assignments" },
   { cond := fun ln lt => condDoc lt && !condResume ln && !condAssign ln && condCover ln,
     tags := ["work", "application"], folder := some "Cover Letters" },
   { cond := fun ln lt => condDoc lt && !condResume ln && !condAssign ln &&
       !condCover ln && condJob ln,
     tags := ["work", "application"], folder := some "Job Applications" },
   { cond := fun ln lt => condDoc lt && !condResume ln && !condAssign ln &&
       !condCover ln && !condJob ln,
     tags := [], folder := some "Documents" }]

/-- The image block as table rows. -/
def imageRules : List FallbackRule :=
  [{ cond := fun _ lt => condImage lt, tags := ["image"], folder := none },
   { cond := fun ln lt => condImage lt && condPhoto ln,
     tags := ["photo"], folder := some "Photos" },
   { cond := fun ln lt => condImage lt && !condPhoto ln && condShot ln,
     tags := ["screenshot"], folder := some "Screenshots" },
   { cond := fun ln lt => condImage lt && !condPhoto ln && !condShot ln && condWall ln,
     tags := ["wallpaper"], folder := some "Wallpapers" },
   { cond := fun ln lt => condImage lt && !condPhoto ln && !condShot ln && !condWall ln,
     tags := [], folder := some "Images" }]

/-- The spreadsheet block as table rows. -/
def sheetRules : List FallbackRule :=
  [{ cond := fun _ lt => condSheet lt, tags := ["spreadsheet", "data"], folder := none },
   { cond := fun ln lt => condSheet lt && condCustomer ln,
     tags := ["customer"], folder := some "Customer Data" },
   { cond := fun ln lt => condSheet lt && !condCustomer ln && condFinance ln,
     tags := ["finance"], folder := some "Financial Data" },
   { cond := fun ln lt => condSheet lt && !condCustomer ln && !condFinance ln,
     tags := [], folder := some "Spreadsheets" }]

/-- The video rule as a table row. -/
def videoRules : List FallbackRule :=
  [{ cond := fun _ lt => condVideo lt, tags := ["video"], folder := some "Videos" }]

/-- The report name rule as a table row (tag only). -/
def reportRules : List FallbackRule :=
  [{ cond := fun ln _ => condReport ln, tags := ["report"], folder := none }]

/-- The invoice/receipt name rule as a table row. -/
def invoiceRules : List FallbackRule :=
  [{ cond := fun ln _ => condInvoice ln,
     tags := ["finance"], folder := some "Financial Documents" }]

/-- The project name rule as a table row. -/
def projectRules : List FallbackRule :=
  [{ cond := fun ln _ => condProject ln, tags := ["project"], folder := some "Projects" }]

/-- The presentation name rule as a table row. -/
def presentationRules : List FallbackRule :=
  [{ cond := fun ln _ => condPresentation ln,
     tags := ["presentation"], folder := some "Presentations" }]

/-- The complete fallback rule table, in the source's order. -/
def fallbackRuleTable : List FallbackRule :=
  docRules ++ imageRules ++ sheetRules ++ videoRules ++ reportRules ++
    invoiceRules ++ projectRules ++ presentationRules

/-! ### Similar-file matcher (`apply-to-similar` filter in `server/routes.ts`) -/

/-- A row of the `files` table as the route handlers see it
(`shared/schema.ts`, snake_case columns read back from the store). -/
structure DbFile where
  id : String
  originalName : String
  displayName : String
  fileType : String
  fileSize : Nat
  storagePath : String
  tags : List String
  folderId : Option String
  userId : String
deriving Repr, DecidableEq

/-- A row of the `folders` table (`shared/schema.ts`). -/
structure DbFolder where
  id : String
  name : String
  userId : String
  isAiGenerated : Bool
deriving Repr, DecidableEq

/-- Is `c` in the character class `[a-z0-9]` of the keyword regex? -/
def isAlnumChar (c : Char) : Bool :=
  ('a' ≤ c && c ≤ 'z') || ('0' ≤ c && c ≤ '9')

/-- Replace characters outside `[a-z0-9]` by a space, modelling
`.replace(/[^a-z0-9]/g, ' ')` on an already lowercased string. -/
def replBlank (c : Char) : Char := if isAlnumChar c then c else ' '

/-- Helper for `splitOnChar`: returns the first chunk and the remaining
chunks of the split. -/
def splitAux (sep : Char) : List Char → List Char × List (List Char)
  | [] => ([], [])
  | c :: cs =>
    let r := splitAux sep cs
    if c == sep then ([], r.1 :: r.2) else (c :: r.1, r.2)

/-- `String.prototype.split(sep)` on character lists: split at every
occurrence of `sep`, keeping empty chunks; the result is never empty. -/
def splitOnChar (sep : Char) (l : List Char) : List (List Char) :=
  (splitAux sep l).1 :: (splitAux sep l).2

/-- `name.split('.').pop().toLowerCase()`: the lowercased substring after
the last dot (the whole name when there is no dot). -/
def extOf (name : String) : List Char :=
  lowerChars ((splitOnChar '.' name.data).getLastD [])

/-- `type.split('/')[0].toLowerCase()`: the lowercased MIME main type. -/
def mainTypeOf (t : String) : List Char :=
  lowerChars ((splitOnChar '/' t.data).headD [])

/-- Keywords of a file name: lowercase, replace non-alphanumerics by
spaces, split on spaces, drop tokens of length ≤ 2. -/
def keywordsOf (name : String) : List (List Char) :=
  (splitOnChar ' ' ((lowerChars name.data).map replBlank)).filter
    (fun w => decide (2 < w.length))

/-- `sourceKeywords.filter(keyword => fileKeywords.some(fKeyword =>
fKeyword.includes(keyword) || keyword.includes(fKeyword) || fKeyword ===
keyword))` from the similar-file filter. -/
def commonKeywords (sourceName fileName : String) : List (List Char) :=
  (keywordsOf sourceName).filter (fun k =>
    (keywordsOf fileName).any (fun fk =>
      containsSeq fk k || containsSeq k fk || fk == k))

/-- Clause (a): `file.file_type === sourceFile.file_type`. -/
def sameExactTypeB (sourceFile file : DbFile) : Bool :=
  file.fileType == sourceFile.fileType

/-- Part of clause (b): equal lowercased MIME main types. -/
def sameMainTypeB (sourceFile file : DbFile) : Bool :=
  mainTypeOf sourceFile.fileType == mainTypeOf file.fileType

/-- Equal lowercased last-dot extensions. -/
def sameExtensionB (sourceFile file : DbFile) : Bool :=
  extOf sourceFile.originalName == extOf file.originalName

/-- `commonKeywords.length > 0`. -/
def hasCommonKeywordsB (sourceFile file : DbFile) : Bool :=
  decide (0 < (commonKeywords sourceFile.originalName file.originalName).length)

/-- Clause (c): same extension and at least one shared keyword. -/
def clauseC (sourceFile file : DbFile) : Bool :=
  sameExtensionB sourceFile file && hasCommonKeywordsB sourceFile file

/-- The similar-file matching predicate `isMatch` of the
`apply-to-similar` filter: exact type, or same main type and extension,
or same extension with common keywords. -/
def isMatch (sourceFile file : DbFile) : Bool :=
  sameExactTypeB sourceFile file ||
    (sameMainTypeB sourceFile file && sameExtensionB sourceFile file) ||
    clauseC sourceFile file

/-- Concrete file whose extension `v-1` contains a non-alphanumeric
character (counterexample input for C5). -/
def fileDashA : DbFile :=
  { id := "1", originalName := "a.v-1", displayName := "a", fileType := "text/plain",
    fileSize := 1, storagePath := "p1", tags := [], folderId := none, userId := "u" }

/-- Second file with the same non-alphanumeric extension `v-1`. -/
def fileDashB : DbFile :=
  { id := "2", originalName := "b.v-1", displayName := "b", fileType := "text/plain",
    fileSize := 1, storagePath := "p2", tags := [], folderId := none, userId := "u" }

/-- Concrete pdf file (witness input). -/
def filePdfA : DbFile :=
  { id := "1", originalName := "report_q1.pdf", displayName := "report_q1",
    fileType := "application/pdf", fileSize := 1, storagePath := "p1",
    tags := ["report", "q1"], folderId := none, userId := "u" }

/-- Second concrete pdf file (witness input). -/
def filePdfB : DbFile :=
  { id := "2", originalName := "report_q2.pdf", displayName := "report_q2",
    fileType := "application/pdf", fileSize := 1, storagePath := "p2",
    tags := [], folderId := none, userId := "u" }

/-! ### Storage model (`server/storage.ts`) and route handlers
(`server/routes.ts`) -/

/-- The relational store as one server request sees it: the `files` and
`folders` tables plus a counter generating fresh folder ids (the real
store generates UUIDs). -/
structure Db where
  files : List DbFile
  folders : List DbFolder
  nextId : Nat
deriving Repr, DecidableEq

/-- `storage.getFile(id, userId)`: select a single row by id scoped to
the owner; `undefined` when absent. -/
def getFile (db : Db) (id userId : String) : Option DbFile :=
  db.files.find? (fun f => f.id == id && f.userId == userId)

/-- `storage.getAllFiles(userId)`: all file rows owned by the user. -/
def getAllFiles (db : Db) (userId : String) : List DbFile :=
  db.files.filter (fun f => f.userId == userId)

/-- `storage.getAllFolders(userId)`: all folder rows owned by the user. -/
def getAllFolders (db : Db) (userId : String) : List DbFolder :=
  db.folders.filter (fun f => f.userId == userId)

/-- The partial update object passed to `storage.updateFile` by the
routes under verification (`{tags}` or `{folderId, tags}`). -/
structure FileUpdate where
  tags : Option (List String)
  folderId : Option String
deriving Repr, DecidableEq

/-- Apply a partial update to a row: present fields overwrite, absent
fields keep the stored value. -/
def applyUpdate (u : FileUpdate) (f : DbFile) : DbFile :=
  { f with
    tags := match u.tags with | some ts => ts | none => f.tags
    folderId := match u.folderId with | some fid => some fid | none => f.folderId }

/-- `storage.updateFile(id, updates, userId)`: update the matching row
scoped to the owner and return the updated row. On a database error the
source returns `undefined` instead of throwing; the Boolean oracle `ok`
models that failure mode (`false` = the update fails, the store is
unchanged and `undefined` comes back). -/
def updateFile (db : Db) (ok : Bool) (id userId : String) (u : FileUpdate) :
    Db × Option DbFile :=
  if ok then
    match db.files.find? (fun f => f.id == id && f.userId == userId) with
    | some f =>
      let files := db.files.map fun g =>
        if g.id == id && g.userId == userId then applyUpdate u g else g
      ({ db with files := files }, some (applyUpdate u f))
    | none => (db, none)
  else (db, none)

/-- Fresh folder id for the model (the real store generates a UUID). -/
def freshFolderId (n : Nat) : String := String.mk ('f' :: List.replicate n 'x')

/-- `storage.createFolder`: insert a folder row with a store-generated id
and return it. A failing insert throws in the source; that failure mode
is outside the ones the claims quantify over, so the model keeps the
call total. -/
def createFolder (db : Db) (name userId : String) (isAi : Bool) : Db × DbFolder :=
  let folder : DbFolder :=
    { id := freshFolderId db.nextId, name := name, userId := userId,
      isAiGenerated := isAi }
  ({ db with folders := db.folders ++ [folder], nextId := db.nextId + 1 }, folder)

/-- Response payload of `POST /api/files/:id/apply-to-similar`. -/
structure ApplyResult where
  sourceFile : DbFile
  updatedFiles : List DbFile
  count : Nat
  similarFilesFound : Nat
deriving Repr, DecidableEq

/-- The similar-files filter of the `apply-to-similar` handler: every
file of the user except the source id that satisfies `isMatch`. -/
def similarFilesOf (db : Db) (id userId : String) (sourceFile : DbFile) : List DbFile :=
  (getAllFiles db userId).filter (fun file => !(file.id == id) && isMatch sourceFile file)

/-- The per-file update loop of the `apply-to-similar` handler: write the
source tags onto each similar file; a failed update (`undefined` result)
is not pushed onto `updatedFiles` and does not stop the loop (the
source also wraps each iteration in try/catch). -/
def applyLoop (okUpd : String → Bool) (newTags : List String) (userId : String) :
    Db → List DbFile → List DbFile → Db × List DbFile
  | db, ups, [] => (db, ups)
  | db, ups, file :: rest =>
    match updateFile db (okUpd file.id) file.id userId
        { tags := some newTags, folderId := none } with
    | (db', some uf) => applyLoop okUpd newTags userId db' (ups ++ [uf]) rest
    | (db', none) => applyLoop okUpd newTags userId db' ups rest

/-- `POST /api/files/:id/apply-to-similar`: fetch the source file (404 →
`none`), filter similar files, copy the source tag list onto each and
report the successfully updated rows plus both counts. -/
def applyToSimilar (db : Db) (okUpd : String → Bool) (id userId : String) :
    Db × Option ApplyResult :=
  match getFile db id userId with
  | none => (db, none)
  | some sourceFile =>
    let similarFiles := similarFilesOf db id userId sourceFile
    let r := applyLoop okUpd sourceFile.tags userId db [] similarFiles
    (r.1, some { sourceFile := sourceFile, updatedFiles := r.2,
                 count := r.2.length, similarFilesFound := similarFiles.length })

/-- Report of `POST /api/organize-files`. -/
structure OrganizeReport where
  foldersCreated : Nat
  filesMoved : Nat
deriving Repr, DecidableEq

/-- The per-file loop of the `organize-files` handler: skip files already
in folders; re-tag the rest; when a folder name is suggested, reuse a
case-insensitively matching folder of the user (looked up against the
current store, so folders created earlier in the run are seen) or create
one flagged as AI-generated, then write the folder reference and the new
tags. `moved` is incremented after the update call regardless of its
result, mirroring the source, which ignores the return value of
`storage.updateFile`. -/
def organizeLoop (tagger : String → String → FileTagging) (okUpd : String → Bool)
    (userId : String) : Db → Nat → Nat → List DbFile → Db × Nat × Nat
  | db, created, moved, [] => (db, created, moved)
  | db, created, moved, file :: rest =>
    if file.folderId.isSome then organizeLoop tagger okUpd userId db created moved rest
    else
      let aiTagging := tagger file.originalName file.fileType
      match aiTagging.suggestedFolderName with
      | none => organizeLoop tagger okUpd userId db created moved rest
      | some fname =>
        match (getAllFolders db userId).find?
            (fun folder => lowerStr folder.name == lowerStr fname) with
        | some existingFolder =>
          let r := updateFile db (okUpd file.id) file.id userId
            { tags := some aiTagging.tags, folderId := some existingFolder.id }
          organizeLoop tagger okUpd userId r.1 created (moved + 1) rest
        | none =>
          let c := createFolder db fname userId true
          let r := updateFile c.1 (okUpd file.id) file.id userId
            { tags := some aiTagging.tags, folderId := some c.2.id }
          organizeLoop tagger okUpd userId r.1 (created + 1) (moved + 1) rest

/-- `POST /api/organize-files`: iterate over the snapshot of the user's
files taken at the start of the request. -/
def organizeFiles (db : Db) (tagger : String → String → FileTagging)
    (okUpd : String → Bool) (userId : String) : Db × OrganizeReport :=
  let r := organizeLoop tagger okUpd userId db 0 0 (getAllFiles db userId)
  (r.1, { foldersCreated := r.2.1, filesMoved := r.2.2 })

/-- Unfoldered pdf file (C3 counterexample input). -/
def fileOrgA : DbFile :=
  { id := "1", originalName := "a.pdf", displayName := "a",
    fileType := "application/pdf", fileSize := 1, storagePath := "p",
    tags := [], folderId := none, userId := "u" }

/-- Pre-existing `Documents` folder (C3 counterexample input). -/
def folderDocs : DbFolder :=
  { id := "9", name := "Documents", userId := "u", isAiGenerated := false }

/-- Store with one unfoldered pdf and a pre-existing `Documents` folder
(C3 counterexample input). -/
def dbOrg : Db := { files := [fileOrgA], folders := [folderDocs], nextId := 0 }

/-- Store with the two report pdfs (C1 witness input). -/
def dbPdf : Db := { files := [filePdfA, filePdfB], folders := [], nextId := 0 }

/-- A file for which no fallback rule fires (C7 witness input). -/
def fileNoRule : DbFile :=
  { id := "1", originalName := "zz", displayName := "zz", fileType := "zz",
    fileSize := 0, storagePath := "p", tags := [], folderId := none, userId := "u" }

/-- Store holding only `fileNoRule` (C7 witness input). -/
def dbNoRule : Db := { files := [fileNoRule], folders := [], nextId := 0 }

/-! ### Theorems -/

/-- `==` is symmetric for lawful `BEq`. -/
theorem beqComm {α : Type} [BEq α] [LawfulBEq α] (x y : α) : (x == y) = (y == x) := by
  by_cases h : x = y
  · subst h; rfl
  · rw [beq_eq_false_iff_ne.mpr h, beq_eq_false_iff_ne.mpr (Ne.symm h)]

/-- C8: the fallback on `resume_john.pdf` / `application/pdf` yields the
`document`, `resume` and `personal` tags and the folder `Resumes`. -/
theorem fallback_resume_example :
    "document" ∈ (generateFallbackTags "resume_john.pdf" "application/pdf").tags ∧
    "resume" ∈ (generateFallbackTags "resume_john.pdf" "application/pdf").tags ∧
    "personal" ∈ (generateFallbackTags "resume_john.pdf" "application/pdf").tags ∧
    (generateFallbackTags "resume_john.pdf" "application/pdf").suggestedFolderName
      = some "Resumes" := by
  decide

/-- C9: the fallback tagger is a pure function of the pair
`(fileName, fileType)`: equal inputs give equal tag lists, equal folder
suggestions and equal confidence. -/
theorem fallback_deterministic (n t n₂ t₂ : String) (hn : n = n₂) (ht : t = t₂) :
    (generateFallbackTags n t).tags = (generateFallbackTags n₂ t₂).tags ∧
    (generateFallbackTags n t).suggestedFolderName
      = (generateFallbackTags n₂ t₂).suggestedFolderName ∧
    (generateFallbackTags n t).confidence = (generateFallbackTags n₂ t₂).confidence := by
  subst hn; subst ht; exact ⟨rfl, rfl, rfl⟩

/-- Witness for C9 at a concrete input. -/
theorem fallback_deterministic_witness :
    (generateFallbackTags "a.pdf" "application/pdf").tags
      = (generateFallbackTags "a.pdf" "application/pdf").tags ∧
    (generateFallbackTags "a.pdf" "application/pdf").suggestedFolderName
      = (generateFallbackTags "a.pdf" "application/pdf").suggestedFolderName ∧
    (generateFallbackTags "a.pdf" "application/pdf").confidence
      = (generateFallbackTags "a.pdf" "application/pdf").confidence :=
  fallback_deterministic "a.pdf" "application/pdf" "a.pdf" "application/pdf" rfl rfl

/-- C10: the fallback can return the same tag twice: a `csv` file whose name
contains both `loan` and `invoice` gets `finance` from the spreadsheet
refinement rule and again from the invoice/receipt rule, so the result is a
list with duplicates, not a set. -/
theorem fallback_duplicate_tags :
    (generateFallbackTags "loan_invoice.csv" "text/csv").tags
      = ["spreadsheet", "data", "finance", "finance"] ∧
    ¬ (generateFallbackTags "loan_invoice.csv" "text/csv").tags.Nodup := by
  decide

/-- The keyword-overlap test is positive exactly when some source keyword
and some candidate keyword contain each other or coincide. -/
theorem commonKeywords_pos_iff (x y : String) :
    0 < (commonKeywords x y).length ↔
      ∃ k ∈ keywordsOf x, ∃ fk ∈ keywordsOf y,
        (containsSeq fk k = true ∨ containsSeq k fk = true ∨ fk = k) := by
  rw [List.length_pos]
  unfold commonKeywords
  rw [Ne, List.filter_eq_nil_iff]
  push_neg
  simp only [List.any_eq_true, Bool.or_eq_true, beq_iff_eq, or_assoc]

/-- The keyword-overlap test is symmetric. -/
theorem hasCommonKeywordsB_symm (a b : DbFile) :
    hasCommonKeywordsB a b = hasCommonKeywordsB b a := by
  unfold hasCommonKeywordsB
  rw [decide_eq_decide, commonKeywords_pos_iff, commonKeywords_pos_iff]
  constructor
  · rintro ⟨k, hk, fk, hfk, h | h | h⟩
    · exact ⟨fk, hfk, k, hk, Or.inr (Or.inl h)⟩
    · exact ⟨fk, hfk, k, hk, Or.inl h⟩
    · exact ⟨fk, hfk, k, hk, Or.inr (Or.inr h.symm)⟩
  · rintro ⟨k, hk, fk, hfk, h | h | h⟩
    · exact ⟨fk, hfk, k, hk, Or.inr (Or.inl h)⟩
    · exact ⟨fk, hfk, k, hk, Or.inl h⟩
    · exact ⟨fk, hfk, k, hk, Or.inr (Or.inr h.symm)⟩

/-- C2: the similar-file matching predicate is symmetric: swapping the two
files does not change the verdict of any of the three clauses. -/
theorem isMatch_symm (a b : DbFile) : isMatch a b = isMatch b a := by
  unfold isMatch clauseC sameExactTypeB sameMainTypeB sameExtensionB
  rw [beqComm b.fileType a.fileType,
    beqComm (mainTypeOf a.fileType) (mainTypeOf b.fileType),
    beqComm (extOf a.originalName) (extOf b.originalName),
    hasCommonKeywordsB_symm a b]

/-- `splitAux` across an explicit separator: the first chunk comes from
the left part and the right part contributes its own chunks. -/
theorem splitAux_append (sep : Char) (a b : List Char) :
    splitAux sep (a ++ sep :: b)
      = ((splitAux sep a).1, (splitAux sep a).2 ++ splitOnChar sep b) := by
  induction a with
  | nil => simp [splitAux, splitOnChar]
  | cons c a ih =>
    simp only [List.cons_append, splitAux, ih]
    split <;> simp [ih]

/-- Splitting a list with an explicit separator in the middle splits
around it. -/
theorem splitOnChar_append (sep : Char) (a b : List Char) :
    splitOnChar sep (a ++ sep :: b) = splitOnChar sep a ++ splitOnChar sep b := by
  simp [splitOnChar, splitAux_append]

/-- `splitAux` on a separator-free list: everything is the first chunk. -/
theorem splitAux_of_not_mem (sep : Char) {l : List Char} (h : sep ∉ l) :
    splitAux sep l = (l, []) := by
  induction l with
  | nil => rfl
  | cons c cs ih =>
    have hcs : sep ∉ cs := fun hh => h (List.mem_cons_of_mem c hh)
    have hc : (c == sep) = false :=
      beq_eq_false_iff_ne.mpr fun hh => h (by rw [← hh]; exact List.mem_cons_self c cs)
    simp [splitAux, ih hcs, hc]

/-- A list without the separator is a single chunk. -/
theorem splitOnChar_of_not_mem (sep : Char) {l : List Char} (h : sep ∉ l) :
    splitOnChar sep l = [l] := by
  simp [splitOnChar, splitAux_of_not_mem sep h]

/-- Any occurrence of `c` in `l` has a last occurrence: `l` splits as
`xs ++ c :: ys` with `c ∉ ys`. -/
theorem exists_last_occurrence {α : Type} [DecidableEq α] {c : α} {l : List α}
    (hmem : c ∈ l) : ∃ xs ys, l = xs ++ c :: ys ∧ c ∉ ys := by
  induction l with
  | nil => cases hmem
  | cons x xs ih =>
    by_cases hc : c ∈ xs
    · obtain ⟨a, b, hab, hb⟩ := ih hc
      exact ⟨x :: a, b, by rw [hab]; rfl, hb⟩
    · have hx : c = x := by
        rcases List.mem_cons.mp hmem with h | h
        · exact h
        · exact absurd h hc
      exact ⟨[], xs, by simp [hx], hc⟩

/-- The extension is the lowercased chunk after the last dot. -/
theorem extOf_eq_of_split (name : String) (xs ys : List Char)
    (hsplit : name.data = xs ++ '.' :: ys) (hys : '.' ∉ ys) :
    extOf name = lowerChars ys := by
  unfold extOf
  rw [hsplit, splitOnChar_append, splitOnChar_of_not_mem '.' hys, List.getLastD_concat]

/-- Mapping a function that fixes every element of a list is the identity. -/
theorem map_self_of_eq {α : Type} {f : α → α} :
    ∀ {l : List α}, (∀ a ∈ l, f a = a) → l.map f = l := by
  intro l h
  induction l with
  | nil => rfl
  | cons x xs ih =>
    rw [List.map_cons, h x (List.mem_cons_self x xs),
      ih fun a ha => h a (List.mem_cons_of_mem x ha)]

/-- If a name contains a dot and its (lowercased) extension is longer than
two characters and purely alphanumeric, the extension is one of the
name's keywords: the dot is replaced by a space, so the extension
survives tokenisation and the length filter. -/
theorem ext_mem_keywords (name : String) (hdot : '.' ∈ name.data)
    (hlen : 2 < (extOf name).length)
    (halnum : ∀ ch ∈ extOf name, isAlnumChar ch = true) :
    extOf name ∈ keywordsOf name := by
  obtain ⟨xs, ys, hsplit, hys⟩ := exists_last_occurrence hdot
  have hext : extOf name = lowerChars ys := extOf_eq_of_split name xs ys hsplit hys
  rw [hext] at hlen halnum ⊢
  unfold keywordsOf
  rw [hsplit]
  have hlower : lowerChars (xs ++ '.' :: ys) = lowerChars xs ++ '.' :: lowerChars ys := by
    unfold lowerChars
    rw [List.map_append, List.map_cons, show Char.toLower '.' = '.' from by decide]
  have hnospace : ' ' ∉ lowerChars ys :=
    fun hsp => absurd (halnum ' ' hsp) (by decide)
  rw [hlower, List.map_append, List.map_cons,
    show replBlank '.' = ' ' from by decide,
    show (lowerChars ys).map replBlank = lowerChars ys from
      map_self_of_eq fun a ha => by simp [replBlank, halnum a ha],
    splitOnChar_append, splitOnChar_of_not_mem ' ' hnospace]
  refine List.mem_filter.mpr ⟨List.mem_append_right _ ?_, decide_eq_true hlen⟩
  exact List.mem_singleton.mpr rfl

/-- C5 (amended): if two files' names both contain a dot and share a
lowercased extension of length at least 3 made only of alphanumeric
characters, then clause (c) of the similarity predicate holds. -/
theorem clauseC_of_alnum_ext (a b : DbFile)
    (ha : '.' ∈ a.originalName.data) (hb : '.' ∈ b.originalName.data)
    (hext : extOf a.originalName = extOf b.originalName)
    (hlen : 2 < (extOf a.originalName).length)
    (halnum : ∀ ch ∈ extOf a.originalName, isAlnumChar ch = true) :
    clauseC a b = true := by
  have hka : extOf a.originalName ∈ keywordsOf a.originalName :=
    ext_mem_keywords a.originalName ha hlen halnum
  have hkb : extOf a.originalName ∈ keywordsOf b.originalName := by
    rw [hext]
    exact ext_mem_keywords b.originalName hb (hext ▸ hlen) (hext ▸ halnum)
  unfold clauseC sameExtensionB hasCommonKeywordsB
  rw [Bool.and_eq_true]
  refine ⟨beq_iff_eq.mpr hext, decide_eq_true ?_⟩
  rw [commonKeywords_pos_iff]
  exact ⟨extOf a.originalName, hka, extOf a.originalName, hkb, Or.inr (Or.inr rfl)⟩

/-- C5 counterexample: two distinct files with dotted names ending in the
same extension `v-1` of length 3, for which clause (c) nevertheless
fails: the dash splits the extension during tokenisation, so no token
survives the length filter and the files share no keyword. -/
theorem clauseC_counterexample :
    fileDashA.id ≠ fileDashB.id ∧
    '.' ∈ fileDashA.originalName.data ∧ '.' ∈ fileDashB.originalName.data ∧
    extOf fileDashA.originalName = extOf fileDashB.originalName ∧
    2 < (extOf fileDashA.originalName).length ∧
    clauseC fileDashA fileDashB = false := by
  decide

/-- `updateFile` never touches the folders table or the id counter. -/
theorem updateFile_folders (db : Db) (ok : Bool) (id userId : String) (u : FileUpdate) :
    (updateFile db ok id userId u).1.folders = db.folders := by
  unfold updateFile
  by_cases hok : ok
  · rw [if_pos hok]
    cases List.find? (fun f => f.id == id && f.userId == userId) db.files <;> rfl
  · rw [if_neg hok]

/-- A row returned by a successful `updateFile` carries the requested id
and, when the update contains a tag list, exactly that tag list. -/
theorem updateFile_some (db : Db) (ok : Bool) (id userId : String) (u : FileUpdate)
    (uf : DbFile) (h : (updateFile db ok id userId u).2 = some uf) :
    uf.id = id ∧ ∀ ts, u.tags = some ts → uf.tags = ts := by
  unfold updateFile at h
  by_cases hok : ok
  · rw [if_pos hok] at h
    cases hfind : List.find? (fun f => f.id == id && f.userId == userId) db.files with
    | none => rw [hfind] at h; simp at h
    | some f =>
      rw [hfind] at h
      simp only [Option.some.injEq] at h
      have hp := List.find?_some hfind
      rw [Bool.and_eq_true, beq_iff_eq, beq_iff_eq] at hp
      refine ⟨?_, ?_⟩
      · rw [← h]; exact hp.1
      · intro ts hts; rw [← h]; simp [applyUpdate, hts]
  · rw [if_neg hok] at h; simp at h

/-- Invariant of the `apply-to-similar` update loop: if everything pushed
so far has the new tags and avoids the source id, and every remaining
file avoids the source id, the same holds of the final pushed list. -/
theorem applyLoop_spec (okUpd : String → Bool) (newTags : List String)
    (userId sid : String) :
    ∀ (lst : List DbFile) (db : Db) (ups : List DbFile),
      (∀ x ∈ ups, x.tags = newTags ∧ x.id ≠ sid) →
      (∀ x ∈ lst, x.id ≠ sid) →
      ∀ x ∈ (applyLoop okUpd newTags userId db ups lst).2,
        x.tags = newTags ∧ x.id ≠ sid := by
  intro lst
  induction lst with
  | nil => intro db ups hups _ x hx; exact hups x hx
  | cons file rest ih =>
    intro db ups hups hlst
    cases hupd : updateFile db (okUpd file.id) file.id userId
        { tags := some newTags, folderId := none } with
    | mk db' r =>
      cases r with
      | some uf =>
        have hstep : applyLoop okUpd newTags userId db ups (file :: rest)
            = applyLoop okUpd newTags userId db' (ups ++ [uf]) rest := by
          simp [applyLoop, hupd]
        rw [hstep]
        refine ih db' (ups ++ [uf]) ?_ fun x hx => hlst x (List.mem_cons_of_mem _ hx)
        intro x hx
        rcases List.mem_append.mp hx with hx | hx
        · exact hups x hx
        · have hu := updateFile_some db (okUpd file.id) file.id userId
            { tags := some newTags, folderId := none } uf (by rw [hupd])
          rw [List.mem_singleton.mp hx]
          exact ⟨hu.2 newTags rfl, hu.1 ▸ hlst file (List.mem_cons_self file rest)⟩
      | none =>
        have hstep : applyLoop okUpd newTags userId db ups (file :: rest)
            = applyLoop okUpd newTags userId db' ups rest := by
          simp [applyLoop, hupd]
        rw [hstep]
        exact ih db' ups hups fun x hx => hlst x (List.mem_cons_of_mem _ hx)

/-- C1: whenever `apply-to-similar` finds its source file, every file in
the returned `updatedFiles` carries exactly the source's tag list (full
replacement), and neither the matched nor the updated files ever include
the source file itself. -/
theorem applyToSimilar_replaces (db : Db) (okUpd : String → Bool) (id userId : String)
    (source : DbFile) (h : getFile db id userId = some source) :
    ∃ db' res, applyToSimilar db okUpd id userId = (db', some res) ∧
      res.sourceFile = source ∧
      (∀ f ∈ res.updatedFiles, f.tags = source.tags ∧ f.id ≠ source.id) ∧
      ∀ f ∈ similarFilesOf db id userId source, f.id ≠ source.id := by
  have hsid : source.id = id := by
    unfold getFile at h
    have hp := List.find?_some h
    rw [Bool.and_eq_true, beq_iff_eq, beq_iff_eq] at hp
    exact hp.1
  have hsim : ∀ f ∈ similarFilesOf db id userId source, f.id ≠ source.id := by
    intro f hf
    have hp := (List.mem_filter.mp hf).2
    rw [Bool.and_eq_true] at hp
    have hne : (f.id == id) = false := by
      cases hfi : (f.id == id)
      · rfl
      · have := hp.1; rw [hfi] at this; simp at this
    rw [hsid]
    exact beq_eq_false_iff_ne.mp hne
  refine ⟨(applyLoop okUpd source.tags userId db []
      (similarFilesOf db id userId source)).1,
    { sourceFile := source,
      updatedFiles := (applyLoop okUpd source.tags userId db []
        (similarFilesOf db id userId source)).2,
      count := (applyLoop okUpd source.tags userId db []
        (similarFilesOf db id userId source)).2.length,
      similarFilesFound := (similarFilesOf db id userId source).length },
    ?_, rfl, ?_, hsim⟩
  · unfold applyToSimilar
    rw [h]
  · exact applyLoop_spec okUpd source.tags userId source.id
      (similarFilesOf db id userId source) db [] (by simp) hsim

/-- Witness for C1 on a concrete store of two similar pdf reports. -/
theorem applyToSimilar_replaces_witness :
    getFile dbPdf "1" "u" = some filePdfA ∧
    (∃ db' res, applyToSimilar dbPdf (fun _ => true) "1" "u" = (db', some res) ∧
      res.sourceFile = filePdfA ∧
      (∀ f ∈ res.updatedFiles, f.tags = filePdfA.tags ∧ f.id ≠ filePdfA.id) ∧
      ∀ f ∈ similarFilesOf dbPdf "1" "u" filePdfA, f.id ≠ filePdfA.id) :=
  ⟨by decide, applyToSimilar_replaces dbPdf (fun _ => true) "1" "u" filePdfA (by decide)⟩

/-- The `moved` counter of the organize loop counts every remaining file
that is unfoldered and receives a folder suggestion — independently of
whether its storage update succeeds. -/
theorem organizeLoop_moved (tagger : String → String → FileTagging)
    (okUpd : String → Bool) (userId : String) :
    ∀ (lst : List DbFile) (db : Db) (created moved : Nat),
      (organizeLoop tagger okUpd userId db created moved lst).2.2 =
        moved + (lst.filter fun x => x.folderId.isNone &&
          (tagger x.originalName x.fileType).suggestedFolderName.isSome).length := by
  intro lst
  induction lst with
  | nil => intro db c m; simp [organizeLoop]
  | cons file rest ih =>
    intro db c m
    cases hfold : file.folderId with
    | some fid => simp [organizeLoop, List.filter_cons, hfold, ih]
    | none =>
      cases hsugg : (tagger file.originalName file.fileType).suggestedFolderName with
      | none => simp [organizeLoop, List.filter_cons, hfold, hsugg, ih]
      | some fname =>
        cases hfind : (getAllFolders db userId).find?
            (fun folder => lowerStr folder.name == lowerStr fname) with
        | some existingFolder =>
          simp [organizeLoop, List.filter_cons, hfold, hsugg, hfind, ih]
          omega
        | none =>
          simp [organizeLoop, List.filter_cons, hfold, hsugg, hfind, ih]
          omega

/-- C3 (amended): `filesMoved` equals the number of eligible (unfoldered)
files whose tagging result suggests a folder, whether or not the
individual storage updates succeed: per-item update failures neither stop
the loop nor reduce the reported count. -/
theorem organize_report_moved (db : Db) (tagger : String → String → FileTagging)
    (okUpd : String → Bool) (userId : String) :
    (organizeFiles db tagger okUpd userId).2.filesMoved =
      ((getAllFiles db userId).filter fun x => x.folderId.isNone &&
        (tagger x.originalName x.fileType).suggestedFolderName.isSome).length := by
  have h := organizeLoop_moved tagger okUpd userId (getAllFiles db userId) db 0 0
  simpa [organizeFiles] using h

/-- C3 counterexample: on a store with one unfoldered pdf whose update
fails (`okUpd` constantly false), the report still claims one moved file
while the store is unchanged and nothing is in any folder. -/
theorem organize_failed_update_still_counted :
    (organizeFiles dbOrg generateFallbackTags (fun _ => false) "u").2.filesMoved = 1 ∧
    (organizeFiles dbOrg generateFallbackTags (fun _ => false) "u").1.files = dbOrg.files ∧
    ∀ g ∈ (organizeFiles dbOrg generateFallbackTags (fun _ => false) "u").1.files,
      g.folderId = none := by
  decide

/-- `createFolder` does not touch the files table. -/
theorem createFolder_files (db : Db) (name userId : String) (ai : Bool) :
    (createFolder db name userId ai).1.files = db.files := rfl

/-- `createFolder` appends exactly its returned folder row. -/
theorem createFolder_folders (db : Db) (name userId : String) (ai : Bool) :
    (createFolder db name userId ai).1.folders
      = db.folders ++ [(createFolder db name userId ai).2] := rfl

/-- Invariant of the organize loop: the run only appends folders, every
appended folder belongs to the user and is flagged AI-generated, the
appended folders have pairwise distinct lowercased names, and none of
them collides case-insensitively with an already stored folder of the
user. -/
theorem organizeLoop_folders (tagger : String → String → FileTagging)
    (okUpd : String → Bool) (userId : String) :
    ∀ (lst : List DbFile) (db : Db) (created moved : Nat),
      ∃ nf, (organizeLoop tagger okUpd userId db created moved lst).1.folders
          = db.folders ++ nf ∧
        (∀ g ∈ nf, g.userId = userId ∧ g.isAiGenerated = true) ∧
        nf.Pairwise (fun a b => lowerStr a.name ≠ lowerStr b.name) ∧
        (∀ g ∈ nf, ∀ g0 ∈ db.folders, g0.userId = userId →
          lowerStr g0.name ≠ lowerStr g.name) := by
  intro lst
  induction lst with
  | nil =>
    intro db c m
    exact ⟨[], by simp [organizeLoop], by simp, by simp, by simp⟩
  | cons file rest ih =>
    intro db c m
    cases hfold : file.folderId with
    | some fid =>
      have hstep : organizeLoop tagger okUpd userId db c m (file :: rest)
          = organizeLoop tagger okUpd userId db c m rest := by
        simp [organizeLoop, hfold]
      rw [hstep]; exact ih db c m
    | none =>
      cases hsugg : (tagger file.originalName file.fileType).suggestedFolderName with
      | none =>
        have hstep : organizeLoop tagger okUpd userId db c m (file :: rest)
            = organizeLoop tagger okUpd userId db c m rest := by
          simp [organizeLoop, hfold, hsugg]
        rw [hstep]; exact ih db c m
      | some fname =>
        cases hfind : (getAllFolders db userId).find?
            (fun folder => lowerStr folder.name == lowerStr fname) with
        | some existingFolder =>
          have hstep : organizeLoop tagger okUpd userId db c m (file :: rest)
              = organizeLoop tagger okUpd userId
                  (updateFile db (okUpd file.id) file.id userId
                    { tags := some (tagger file.originalName file.fileType).tags,
                      folderId := some existingFolder.id }).1 c (m + 1) rest := by
            simp [organizeLoop, hfold, hsugg, hfind]
          rw [hstep]
          obtain ⟨nf, h1, h2, h3, h4⟩ := ih _ c (m + 1)
          refine ⟨nf, ?_, h2, h3, ?_⟩
          · rw [h1, updateFile_folders]
          · intro g hg g0 hg0 hu
            refine h4 g hg g0 ?_ hu
            rw [updateFile_folders]; exact hg0
        | none =>
          have hnotdup : ∀ g0 ∈ db.folders, g0.userId = userId →
              lowerStr g0.name ≠ lowerStr fname := by
            intro g0 hg0 hu heq
            have hmem : g0 ∈ getAllFolders db userId :=
              List.mem_filter.mpr ⟨hg0, beq_iff_eq.mpr hu⟩
            exact (List.find?_eq_none.mp hfind g0 hmem) (beq_iff_eq.mpr heq)
          have hstep : organizeLoop tagger okUpd userId db c m (file :: rest)
              = organizeLoop tagger okUpd userId
                  (updateFile (createFolder db fname userId true).1 (okUpd file.id)
                    file.id userId
                    { tags := some (tagger file.originalName file.fileType).tags,
                      folderId := some (createFolder db fname userId true).2.id }).1
                  (c + 1) (m + 1) rest := by
            simp [organizeLoop, hfold, hsugg, hfind]
          rw [hstep]
          obtain ⟨nf, h1, h2, h3, h4⟩ := ih _ (c + 1) (m + 1)
          have hfolders : (updateFile (createFolder db fname userId true).1 (okUpd file.id)
              file.id userId
              { tags := some (tagger file.originalName file.fileType).tags,
                folderId := some (createFolder db fname userId true).2.id }).1.folders
              = db.folders ++ [(createFolder db fname userId true).2] := by
            rw [updateFile_folders, createFolder_folders]
          refine ⟨(createFolder db fname userId true).2 :: nf, ?_, ?_, ?_, ?_⟩
          · rw [h1, hfolders]; simp
          · intro g hg
            rcases List.mem_cons.mp hg with hg | hg
            · rw [hg]; exact ⟨rfl, rfl⟩
            · exact h2 g hg
          · rw [List.pairwise_cons]
            refine ⟨?_, h3⟩
            intro g hg
            refine h4 g hg (createFolder db fname userId true).2 ?_ rfl
            rw [hfolders]
            exact List.mem_append_right _ (List.mem_singleton.mpr rfl)
          · intro g hg g0 hg0 hu
            rcases List.mem_cons.mp hg with hg | hg
            · rw [hg]; exact hnotdup g0 hg0 hu
            · refine h4 g hg g0 ?_ hu
              rw [hfolders]; exact List.mem_append_left _ hg0

/-- C4: within one run of organize-files, the newly created folders have
pairwise distinct case-insensitive names, all belong to the requesting
user, are flagged AI-generated, and none duplicates (case-insensitively)
a folder of that user that already existed before the run. -/
theorem organize_no_dup_folder_names (db : Db) (tagger : String → String → FileTagging)
    (okUpd : String → Bool) (userId : String) :
    ∃ nf, (organizeFiles db tagger okUpd userId).1.folders = db.folders ++ nf ∧
      (∀ g ∈ nf, g.userId = userId ∧ g.isAiGenerated = true) ∧
      nf.Pairwise (fun a b => lowerStr a.name ≠ lowerStr b.name) ∧
      (∀ g ∈ nf, ∀ g0 ∈ db.folders, g0.userId = userId →
        lowerStr g0.name ≠ lowerStr g.name) := by
  have h := organizeLoop_folders tagger okUpd userId (getAllFiles db userId) db 0 0
  simpa [organizeFiles] using h

/-- The files table after `updateFile` is either unchanged or the
pointwise rewrite of the matching rows. -/
theorem updateFile_files (db : Db) (ok : Bool) (id userId : String) (u : FileUpdate) :
    (updateFile db ok id userId u).1.files = db.files ∨
    (updateFile db ok id userId u).1.files = db.files.map
      (fun g => if g.id == id && g.userId == userId then applyUpdate u g else g) := by
  unfold updateFile
  by_cases hok : ok
  · rw [if_pos hok]
    cases List.find? (fun x => x.id == id && x.userId == userId) db.files with
    | none => left; rfl
    | some g => right; rfl
  · rw [if_neg hok]; left; rfl

/-- A row whose id differs from the updated id is untouched by
`updateFile`. -/
theorem updateFile_preserves_other (db : Db) (ok : Bool) (id userId : String)
    (u : FileUpdate) {f : DbFile} (hf : f ∈ db.files) (hid : f.id ≠ id) :
    f ∈ (updateFile db ok id userId u).1.files := by
  rcases updateFile_files db ok id userId u with h | h
  · rw [h]; exact hf
  · rw [h]
    have hσ : (fun g => if g.id == id && g.userId == userId then applyUpdate u g else g) f
        = f := by
      have hbf : (f.id == id) = false := beq_eq_false_iff_ne.mpr hid
      simp [hbf]
    have hmem := List.mem_map_of_mem
      (fun g => if g.id == id && g.userId == userId then applyUpdate u g else g) hf
    rwa [hσ] at hmem

/-- `updateFile` with a target id different from `f.id` preserves the
property that every row carrying `f.id` is the row `f` itself. -/
theorem updateFile_sameId_unique (db : Db) (ok : Bool) (id userId : String)
    (u : FileUpdate) {f : DbFile} (hid : f.id ≠ id)
    (hinv : ∀ g ∈ db.files, g.id = f.id → g = f) :
    ∀ g ∈ (updateFile db ok id userId u).1.files, g.id = f.id → g = f := by
  rcases updateFile_files db ok id userId u with h | h
  · rw [h]; exact hinv
  · rw [h]
    intro g hg hgid
    obtain ⟨g1, hg1, hσ⟩ := List.mem_map.mp hg
    by_cases hcond : (g1.id == id && g1.userId == userId) = true
    · rw [if_pos hcond] at hσ
      rw [Bool.and_eq_true] at hcond
      have hgid1 : g1.id = id := beq_iff_eq.mp hcond.1
      have hgg1 : g.id = g1.id := by rw [← hσ]; rfl
      exact absurd (by rw [← hgid, hgg1, hgid1]) hid
    · rw [if_neg hcond] at hσ
      subst hσ
      exact hinv g1 hg1 hgid

/-- Frame invariant of the organize loop: a stored row `f` with a unique
id that is never targeted by the remaining iterations survives the loop
unchanged, and stays the only row with its id. -/
theorem organizeLoop_frame (tagger : String → String → FileTagging)
    (okUpd : String → Bool) (userId : String) (f : DbFile) :
    ∀ (lst : List DbFile) (db : Db) (created moved : Nat),
      (∀ x ∈ lst, x.folderId = none →
        (tagger x.originalName x.fileType).suggestedFolderName ≠ none → x.id ≠ f.id) →
      f ∈ db.files → (∀ g ∈ db.files, g.id = f.id → g = f) →
      f ∈ (organizeLoop tagger okUpd userId db created moved lst).1.files ∧
      ∀ g ∈ (organizeLoop tagger okUpd userId db created moved lst).1.files,
        g.id = f.id → g = f := by
  intro lst
  induction lst with
  | nil =>
    intro db c m _ hf hinv
    simp only [organizeLoop]
    exact ⟨hf, hinv⟩
  | cons file rest ih =>
    intro db c m hlst hf hinv
    have hlst' := fun x hx => hlst x (List.mem_cons_of_mem _ hx)
    cases hfold : file.folderId with
    | some fid =>
      have hstep : organizeLoop tagger okUpd userId db c m (file :: rest)
          = organizeLoop tagger okUpd userId db c m rest := by
        simp [organizeLoop, hfold]
      rw [hstep]; exact ih db c m hlst' hf hinv
    | none =>
      cases hsugg : (tagger file.originalName file.fileType).suggestedFolderName with
      | none =>
        have hstep : organizeLoop tagger okUpd userId db c m (file :: rest)
            = organizeLoop tagger okUpd userId db c m rest := by
          simp [organizeLoop, hfold, hsugg]
        rw [hstep]; exact ih db c m hlst' hf hinv
      | some fname =>
        have hne : file.id ≠ f.id :=
          hlst file (List.mem_cons_self file rest) hfold (by rw [hsugg]; simp)
        have hfne : f.id ≠ file.id := Ne.symm hne
        cases hfind : (getAllFolders db userId).find?
            (fun folder => lowerStr folder.name == lowerStr fname) with
        | some existingFolder =>
          have hstep : organizeLoop tagger okUpd userId db c m (file :: rest)
              = organizeLoop tagger okUpd userId
                  (updateFile db (okUpd file.id) file.id userId
                    { tags := some (tagger file.originalName file.fileType).tags,
                      folderId := some existingFolder.id }).1 c (m + 1) rest := by
            simp [organizeLoop, hfold, hsugg, hfind]
          rw [hstep]
          refine ih _ c (m + 1) hlst' ?_ ?_
          · exact updateFile_preserves_other db (okUpd file.id) file.id userId _ hf hfne
          · exact updateFile_sameId_unique db (okUpd file.id) file.id userId _ hfne hinv
        | none =>
          have hstep : organizeLoop tagger okUpd userId db c m (file :: rest)
              = organizeLoop tagger okUpd userId
                  (updateFile (createFolder db fname userId true).1 (okUpd file.id)
                    file.id userId
                    { tags := some (tagger file.originalName file.fileType).tags,
                      folderId := some (createFolder db fname userId true).2.id }).1
                  (c + 1) (m + 1) rest := by
            simp [organizeLoop, hfold, hsugg, hfind]
          rw [hstep]
          refine ih _ (c + 1) (m + 1) hlst' ?_ ?_
          · refine updateFile_preserves_other _ (okUpd file.id) file.id userId _ ?_ hfne
            rw [createFolder_files]; exact hf
          · refine updateFile_sameId_unique _ (okUpd file.id) file.id userId _ hfne ?_
            rw [createFolder_files]; exact hinv

/-- C7: a stored unfoldered file of the user whose tagging result carries
no folder suggestion is left completely unchanged by organize-files: the
original row is still present, and it is the only row with its id. -/
theorem organize_leaves_unsuggested (db : Db) (tagger : String → String → FileTagging)
    (okUpd : String → Bool) (userId : String) (f : DbFile)
    (hnodup : (db.files.map DbFile.id).Nodup)
    (hf : f ∈ db.files) (_hunf : f.folderId = none)
    (hns : (tagger f.originalName f.fileType).suggestedFolderName = none) :
    f ∈ (organizeFiles db tagger okUpd userId).1.files ∧
    ∀ g ∈ (organizeFiles db tagger okUpd userId).1.files, g.id = f.id → g = f := by
  have hinv : ∀ g ∈ db.files, g.id = f.id → g = f := fun g hg hgid =>
    List.inj_on_of_nodup_map hnodup hg hf hgid
  have hlst : ∀ x ∈ getAllFiles db userId, x.folderId = none →
      (tagger x.originalName x.fileType).suggestedFolderName ≠ none → x.id ≠ f.id := by
    intro x hx _ hxs hxe
    have hxmem : x ∈ db.files := (List.mem_filter.mp hx).1
    have hxf : x = f := List.inj_on_of_nodup_map hnodup hxmem hf hxe
    exact hxs (by rw [hxf]; exact hns)
  have h := organizeLoop_frame tagger okUpd userId f (getAllFiles db userId) db 0 0
    hlst hf hinv
  simpa [organizeFiles] using h

/-- Witness for C7 on a store holding one file for which no fallback rule
fires. -/
theorem organize_leaves_unsuggested_witness :
    ((dbNoRule.files.map DbFile.id).Nodup ∧ fileNoRule ∈ dbNoRule.files ∧
      fileNoRule.folderId = none ∧
      (generateFallbackTags fileNoRule.originalName
        fileNoRule.fileType).suggestedFolderName = none) ∧
    (fileNoRule ∈ (organizeFiles dbNoRule generateFallbackTags
        (fun _ => true) "u").1.files ∧
      ∀ g ∈ (organizeFiles dbNoRule generateFallbackTags (fun _ => true) "u").1.files,
        g.id = fileNoRule.id → g = fileNoRule) :=
  ⟨by decide,
    organize_leaves_unsuggested dbNoRule generateFallbackTags (fun _ => true) "u"
      fileNoRule (by decide) (by decide) (by decide) (by decide)⟩

/-- Witness for the amended C5 at the concrete pair
`report_q1.pdf` / `report_q2.pdf`. -/
theorem clauseC_of_alnum_ext_witness :
    ('.' ∈ filePdfA.originalName.data ∧ '.' ∈ filePdfB.originalName.data ∧
      extOf filePdfA.originalName = extOf filePdfB.originalName ∧
      2 < (extOf filePdfA.originalName).length ∧
      (∀ ch ∈ extOf filePdfA.originalName, isAlnumChar ch = true)) ∧
    clauseC filePdfA filePdfB = true :=
  ⟨by decide,
    clauseC_of_alnum_ext filePdfA filePdfB (by decide) (by decide) (by decide)
      (by decide) (by decide)⟩

/-- `getLast?` of a cons, phrased with `Option.or`. -/
theorem getLast?_cons_or {α : Type} :
    ∀ (L : List α) (x : α), (x :: L).getLast? = (L.getLast?).or (some x) := by
  intro L
  induction L with
  | nil => intro x; rfl
  | cons y ys ih =>
    intro x
    rw [List.getLast?_cons_cons, ih y]
    cases h : ys.getLast? <;> rfl

/-- The tag component of a table run: every matching rule appends its
tags, in table order. -/
theorem foldl_applyRule_fst (ln lt : String) :
    ∀ (rules : List FallbackRule) (st : List String × Option String),
      (List.foldl (applyRule ln lt) st rules).1
        = st.1 ++ ((rules.filter fun r => r.cond ln lt).map FallbackRule.tags).flatten := by
  intro rules
  induction rules with
  | nil => intro st; simp
  | cons r rs ih =>
    intro st
    by_cases hc : r.cond ln lt = true
    · rw [List.foldl_cons, ih]
      simp [applyRule, hc, List.filter_cons]
    · rw [List.foldl_cons, ih]
      simp [applyRule, hc, List.filter_cons]

/-- The folder component of a table run: the last matching rule that
carries a folder name wins; with no such rule the initial suggestion
survives. -/
theorem foldl_applyRule_snd (ln lt : String) :
    ∀ (rules : List FallbackRule) (st : List String × Option String),
      (List.foldl (applyRule ln lt) st rules).2
        = (((rules.filter fun r => r.cond ln lt).filterMap
            FallbackRule.folder).getLast?).or st.2 := by
  intro rules
  induction rules with
  | nil => intro st; simp
  | cons r rs ih =>
    intro st
    by_cases hc : r.cond ln lt = true
    · rw [List.foldl_cons, ih]
      cases hf : r.folder with
      | none => simp [applyRule, hc, hf, List.filter_cons, List.filterMap_cons]
      | some x =>
        simp only [applyRule, hc, hf, if_true, List.filter_cons, List.filterMap_cons]
        simp [getLast?_cons_or, Option.or_assoc]
    · rw [List.foldl_cons, ih]
      simp [applyRule, hc, List.filter_cons]

/-- The document block equals the table run of its rules. -/
theorem foldl_docRules (ln lt : String) (st : List String × Option String) :
    List.foldl (applyRule ln lt) st docRules = docStep ln lt st := by
  cases hd : condDoc lt <;> cases h1 : condResume ln <;> cases h2 : condAssign ln <;>
    cases h3 : condCover ln <;> cases h4 : condJob ln <;>
      simp [docRules, docStep, applyRule, hd, h1, h2, h3, h4]

/-- The image block equals the table run of its rules. -/
theorem foldl_imageRules (ln lt : String) (st : List String × Option String) :
    List.foldl (applyRule ln lt) st imageRules = imageStep ln lt st := by
  cases hd : condImage lt <;> cases h1 : condPhoto ln <;> cases h2 : condShot ln <;>
    cases h3 : condWall ln <;>
      simp [imageRules, imageStep, applyRule, hd, h1, h2, h3]

/-- The spreadsheet block equals the table run of its rules. -/
theorem foldl_sheetRules (ln lt : String) (st : List String × Option String) :
    List.foldl (applyRule ln lt) st sheetRules = sheetStep ln lt st := by
  cases hd : condSheet lt <;> cases h1 : condCustomer ln <;> cases h2 : condFinance ln <;>
    simp [sheetRules, sheetStep, applyRule, hd, h1, h2]

/-- The video rule equals the table run of its rule. -/
theorem foldl_videoRules (ln lt : String) (st : List String × Option String) :
    List.foldl (applyRule ln lt) st videoRules = videoStep ln lt st := by
  cases hd : condVideo lt <;> simp [videoRules, videoStep, applyRule, hd]

/-- The report rule equals the table run of its rule. -/
theorem foldl_reportRules (ln lt : String) (st : List String × Option String) :
    List.foldl (applyRule ln lt) st reportRules = reportStep ln lt st := by
  cases hd : condReport ln <;> simp [reportRules, reportStep, applyRule, hd]

/-- The invoice rule equals the table run of its rule. -/
theorem foldl_invoiceRules (ln lt : String) (st : List String × Option String) :
    List.foldl (applyRule ln lt) st invoiceRules = invoiceStep ln lt st := by
  cases hd : condInvoice ln <;> simp [invoiceRules, invoiceStep, applyRule, hd]

/-- The project rule equals the table run of its rule. -/
theorem foldl_projectRules (ln lt : String) (st : List String × Option String) :
    List.foldl (applyRule ln lt) st projectRules = projectStep ln lt st := by
  cases hd : condProject ln <;> simp [projectRules, projectStep, applyRule, hd]

/-- The presentation rule equals the table run of its rule. -/
theorem foldl_presentationRules (ln lt : String) (st : List String × Option String) :
    List.foldl (applyRule ln lt) st presentationRules = presentationStep ln lt st := by
  cases hd : condPresentation ln <;>
    simp [presentationRules, presentationStep, applyRule, hd]

/-- Running the whole rule table is exactly the source's block sequence. -/
theorem foldl_ruleTable (ln lt : String) (st : List String × Option String) :
    List.foldl (applyRule ln lt) st fallbackRuleTable
      = presentationStep ln lt (projectStep ln lt (invoiceStep ln lt (reportStep ln lt
          (videoStep ln lt (sheetStep ln lt (imageStep ln lt (docStep ln lt st))))))) := by
  unfold fallbackRuleTable
  rw [List.foldl_append, List.foldl_append, List.foldl_append, List.foldl_append,
    List.foldl_append, List.foldl_append, List.foldl_append]
  rw [foldl_docRules, foldl_imageRules, foldl_sheetRules, foldl_videoRules,
    foldl_reportRules, foldl_invoiceRules, foldl_projectRules, foldl_presentationRules]

/-- C6: the fallback tagger implements the ordered rule table with
overwrite semantics: the suggested folder name is the folder of the last
matching folder-suggesting rule in table order (later matching rules
overwrite earlier suggestions), while the tag lists of all matching
rules are appended (with the `uncategorized` default when none match a
tag). -/
theorem fallback_last_rule_wins (fileName fileType : String) :
    (generateFallbackTags fileName fileType).suggestedFolderName
      = ((fallbackRuleTable.filter fun r =>
          r.cond (lowerStr fileName) (lowerStr fileType)).filterMap
            FallbackRule.folder).getLast? ∧
    (generateFallbackTags fileName fileType).tags
      = (let allTags := ((fallbackRuleTable.filter fun r =>
            r.cond (lowerStr fileName) (lowerStr fileType)).map
              FallbackRule.tags).flatten
         if 0 < allTags.length then allTags else ["uncategorized"]) := by
  have h1 := foldl_applyRule_fst (lowerStr fileName) (lowerStr fileType)
    fallbackRuleTable ([], none)
  have h2 := foldl_applyRule_snd (lowerStr fileName) (lowerStr fileType)
    fallbackRuleTable ([], none)
  rw [foldl_ruleTable] at h1 h2
  rw [Option.or_none] at h2
  rw [List.nil_append] at h1
  constructor
  · show (presentationStep _ _ (projectStep _ _ (invoiceStep _ _ (reportStep _ _
      (videoStep _ _ (sheetStep _ _ (imageStep _ _ (docStep _ _ ([], none))))))))).2 = _
    exact h2
  · show (if 0 < (presentationStep _ _ (projectStep _ _ (invoiceStep _ _ (reportStep _ _
      (videoStep _ _ (sheetStep _ _ (imageStep _ _ (docStep _ _ ([], none))))))))).1.length
        then _ else ["uncategorized"]) = _
    rw [h1]

end SFO
